import Mathlib

/-!
Verification of the freehand drawing engine of the canvas component
(`src/components/Canvas.tsx`).

The component is embedded shallowly:

* machine numbers (`Math.random()` results, coordinates, brush sizes) are
  modelled as rationals `ℚ`;
* the ambient `Math.random()` stream is an injected random source
  `rnd : ℕ → ℚ`, read in the order the source calls it;
* `Math.cos` / `Math.sin` / `Math.PI` are injected as fields of the
  configuration (`cosf`, `sinf`, `pi`), characterised only by the
  hypotheses a theorem needs (such as `cosf θ ^ 2 + sinf θ ^ 2 = 1`);
* the 2D rendering context is modelled by the list of drawing commands a
  call pushes onto it; `contextRef.current` (possibly `null`) is an
  `Option Unit` argument, and a draw function called with `none` emits no
  commands, exactly as the early `if (!ctx) return` in the source;
* the React refs `isDrawing` / `lastPoint` form the `Session` state, and
  the three event handlers are state transformers returning the new
  session plus the emitted drawing commands.
-/

namespace Atelier

/-- Logical-coordinate point, the `{x, y}` pairs of the source. -/
structure Point where
  x : ℚ
  y : ℚ
deriving DecidableEq

/-- The selectable tool: brush, splatter or drip. -/
inductive Tool
  | brush
  | splatter
  | drip
deriving DecidableEq

/-- The part of `getBoundingClientRect()` the normalizer reads. -/
structure Rect where
  left : ℚ
  top : ℚ
deriving DecidableEq

/-- A raw interaction event: mouse-like with client coordinates, or
touch-like with a first contact point and further ignored contacts. -/
inductive RawEvent
  | mouse (clientX clientY : ℚ)
  | touch (first : ℚ × ℚ) (rest : List (ℚ × ℚ))
deriving DecidableEq

/-- Current external configuration read on every draw call: the props
`color`, `tool`, `brushSize`, together with the injected ambient math
functions (`Math.cos`, `Math.sin`, `Math.PI`). -/
structure Config where
  color : String
  tool : Tool
  brushSize : ℚ
  cosf : ℚ → ℚ
  sinf : ℚ → ℚ
  pi : ℚ

/-- One drawing command issued to the 2D context: a stroked straight
segment, a filled circle (splatter droplet or drip blob), or the filled
two-quadratic-curve teardrop of `drawDrip` given by its five path points
(start, first control, converging end point, second control, final point). -/
inductive DrawCmd
  | segment (start stop : Point) (width : ℚ) (color : String)
  | circle (cx cy radius : ℚ) (color : String)
  | teardrop (p0 c1 mid c2 p4 : Point) (color : String)
deriving DecidableEq

/-- The stroke session state held in the refs `isDrawing` and `lastPoint`. -/
structure Session where
  isDrawing : Bool
  lastPoint : Option Point
deriving DecidableEq

/-- Initial session state: `useRef(false)` / `useRef(null)`. -/
def initialSession : Session := { isDrawing := false, lastPoint := none }

/-- `getCoordinates`: normalize a raw event to logical coordinates
relative to the canvas bounding rectangle; returns the origin when the
canvas ref is unmounted (`if (!canvas) return { x: 0, y: 0 }`). Touch
events use only the first contact (`e.touches[0]`). -/
def getCoordinates (canvas : Option Rect) (e : RawEvent) : Point :=
  match canvas with
  | none => { x := 0, y := 0 }
  | some rect =>
    match e with
    | RawEvent.mouse cx cy => { x := cx - rect.left, y := cy - rect.top }
    | RawEvent.touch f _ => { x := f.1 - rect.left, y := f.2 - rect.top }

/-- `drawBrushStroke(start, end)`: one straight stroked segment of width
`brushSize` in the current color; a no-op when the context is absent. -/
def drawBrushStroke (cfg : Config) (ctx : Option Unit) (start stop : Point) : List DrawCmd :=
  match ctx with
  | none => []
  | some _ => [DrawCmd.segment start stop cfg.brushSize cfg.color]

/-- `Math.floor(Math.random() * 12) + 8`, the droplet count of one
splatter cluster; `rnd 0` is the random draw it consumes. -/
def numDroplets (rnd : ℕ → ℚ) : ℕ := (⌊rnd 0 * 12⌋).toNat + 8

/-- Droplet angle of loop iteration `i`: `Math.random() * Math.PI * 2`.
The loop body consumes three random draws per iteration, after the one
draw for the droplet count, hence the index `3 * i + 1`. -/
def splatterAngle (cfg : Config) (rnd : ℕ → ℚ) (i : ℕ) : ℚ :=
  rnd (3 * i + 1) * cfg.pi * 2

/-- Droplet radial distance of iteration `i`: `Math.random() * brushSize * 3`. -/
def splatterDistance (cfg : Config) (rnd : ℕ → ℚ) (i : ℕ) : ℚ :=
  rnd (3 * i + 2) * cfg.brushSize * 3

/-- Droplet radius of iteration `i`: `Math.random() * brushSize * 0.5 + 2`. -/
def splatterSize (cfg : Config) (rnd : ℕ → ℚ) (i : ℕ) : ℚ :=
  rnd (3 * i + 3) * cfg.brushSize * (1 / 2) + 2

/-- Droplet center abscissa: `x + Math.cos(angle) * distance`. -/
def splatterCenterX (cfg : Config) (rnd : ℕ → ℚ) (x : ℚ) (i : ℕ) : ℚ :=
  x + cfg.cosf (splatterAngle cfg rnd i) * splatterDistance cfg rnd i

/-- Droplet center ordinate: `y + Math.sin(angle) * distance`. -/
def splatterCenterY (cfg : Config) (rnd : ℕ → ℚ) (y : ℚ) (i : ℕ) : ℚ :=
  y + cfg.sinf (splatterAngle cfg rnd i) * splatterDistance cfg rnd i

/-- The filled circle emitted by loop iteration `i` of `drawSplatter`. -/
def splatterDroplet (cfg : Config) (rnd : ℕ → ℚ) (x y : ℚ) (i : ℕ) : DrawCmd :=
  DrawCmd.circle (splatterCenterX cfg rnd x i) (splatterCenterY cfg rnd y i)
    (splatterSize cfg rnd i) cfg.color

/-- `drawSplatter(x, y)`: a cluster of `numDroplets` filled circles; a
no-op when the context is absent. -/
def drawSplatter (cfg : Config) (ctx : Option Unit) (rnd : ℕ → ℚ) (x y : ℚ) : List DrawCmd :=
  match ctx with
  | none => []
  | some _ => (List.range (numDroplets rnd)).map (splatterDroplet cfg rnd x y)

/-- `Math.random() * 80 + 40`, the drip taper length; consumes `rnd 0`. -/
def dripLength (rnd : ℕ → ℚ) : ℚ := rnd 0 * 80 + 40

/-- `Math.random() * brushSize * 0.5 + brushSize * 0.5`, the drip blob
radius; consumes `rnd 1`, drawn after the length. -/
def dripWidth (cfg : Config) (rnd : ℕ → ℚ) : ℚ :=
  rnd 1 * cfg.brushSize * (1 / 2) + cfg.brushSize * (1 / 2)

/-- `drawDrip(x, y)`: the filled blob (an `ellipse` with both radii equal
to `dripWidth`, hence a circle) followed by the teardrop path
`moveTo(x - w*0.3, y)`, `quadraticCurveTo(x - w*0.2, y + L*0.5, x, y + L)`,
`quadraticCurveTo(x + w*0.2, y + L*0.5, x + w*0.3, y)`; a no-op when the
context is absent. -/
def drawDrip (cfg : Config) (ctx : Option Unit) (rnd : ℕ → ℚ) (x y : ℚ) : List DrawCmd :=
  match ctx with
  | none => []
  | some _ =>
    [DrawCmd.circle x y (dripWidth cfg rnd) cfg.color,
     DrawCmd.teardrop
       { x := x - dripWidth cfg rnd * (3 / 10), y := y }
       { x := x - dripWidth cfg rnd * (1 / 5), y := y + dripLength rnd * (1 / 2) }
       { x := x, y := y + dripLength rnd }
       { x := x + dripWidth cfg rnd * (1 / 5), y := y + dripLength rnd * (1 / 2) }
       { x := x + dripWidth cfg rnd * (3 / 10), y := y }
       cfg.color]

/-- `handleStart`: set `isDrawing`, record the normalized point in
`lastPoint`, and render one splatter or drip immediately when that tool is
active (the brush renders nothing on start). -/
def handleStart (cfg : Config) (ctx : Option Unit) (canvas : Option Rect)
    (rnd : ℕ → ℚ) (e : RawEvent) (_s : Session) : Session × List DrawCmd :=
  let coords := getCoordinates canvas e
  let cmds :=
    match cfg.tool with
    | Tool.brush => []
    | Tool.splatter => drawSplatter cfg ctx rnd coords.x coords.y
    | Tool.drip => drawDrip cfg ctx rnd coords.x coords.y
  ({ isDrawing := true, lastPoint := some coords }, cmds)

/-- `handleMove`: ignored unless `isDrawing`; with the brush, stroke one
segment from `lastPoint` to the new point (when `lastPoint` is set); with
splatter or drip, render only when the threshold random draw (`rnd 0`)
exceeds `0.7` resp. `0.9`, the renderer then consuming the subsequent
draws; always store the new point in `lastPoint`. -/
def handleMove (cfg : Config) (ctx : Option Unit) (canvas : Option Rect)
    (rnd : ℕ → ℚ) (e : RawEvent) (s : Session) : Session × List DrawCmd :=
  if s.isDrawing then
    let coords := getCoordinates canvas e
    let cmds :=
      match cfg.tool with
      | Tool.brush =>
        match s.lastPoint with
        | some lp => drawBrushStroke cfg ctx lp coords
        | none => []
      | Tool.splatter =>
        if rnd 0 > 7 / 10 then
          drawSplatter cfg ctx (fun n => rnd (n + 1)) coords.x coords.y
        else []
      | Tool.drip =>
        if rnd 0 > 9 / 10 then
          drawDrip cfg ctx (fun n => rnd (n + 1)) coords.x coords.y
        else []
    ({ isDrawing := true, lastPoint := some coords }, cmds)
  else (s, [])

/-- `handleEnd` (bound to mouse-up, mouse-leave and touch-end): stop
drawing and clear `lastPoint`. -/
def handleEnd (_s : Session) : Session × List DrawCmd :=
  ({ isDrawing := false, lastPoint := none }, [])

/-- One session event: interaction start, interaction move (each carrying
its raw event and the slice of the random stream its handling consumes),
or interaction end / pointer leave. -/
inductive Event
  | start (e : RawEvent) (rnd : ℕ → ℚ)
  | move (e : RawEvent) (rnd : ℕ → ℚ)
  | finish

/-- Dispatch one event to its handler. -/
def stepSession (cfg : Config) (ctx : Option Unit) (canvas : Option Rect)
    (s : Session) : Event → Session × List DrawCmd
  | Event.start e rnd => handleStart cfg ctx canvas rnd e s
  | Event.move e rnd => handleMove cfg ctx canvas rnd e s
  | Event.finish => handleEnd s

/-- Run a list of events (each with the configuration current at that
moment) from a given session state, tracking only the state. -/
def runSessionFrom (ctx : Option Unit) (canvas : Option Rect)
    (s : Session) : List (Config × Event) → Session
  | [] => s
  | ce :: rest => runSessionFrom ctx canvas (stepSession ce.1 ctx canvas s ce.2).1 rest

/-- Run a list of events from the initial (idle) session state. -/
def runSession (ctx : Option Unit) (canvas : Option Rect)
    (events : List (Config × Event)) : Session :=
  runSessionFrom ctx canvas initialSession events

/-- Process a list of move events (each with the configuration and random
slice current at that moment), returning the final session state and the
concatenation of all emitted drawing commands. -/
def processMoves (ctx : Option Unit) (canvas : Option Rect)
    (s : Session) : List (Config × RawEvent × (ℕ → ℚ)) → Session × List DrawCmd
  | [] => (s, [])
  | m :: rest =>
    let out := handleMove m.1 ctx canvas m.2.2 m.2.1 s
    let next := processMoves ctx canvas out.1 rest
    (next.1, out.2 ++ next.2)

/-- Modelled from the spec (§8): the connected polyline through the
sampled points in order — one segment per move event, each segment
starting where the previous one ended, with the width and color current
at that move. Compared against `processMoves` for the brush tool. -/
def polylineSpec (canvas : Option Rect) (p0 : Point) :
    List (Config × RawEvent × (ℕ → ℚ)) → List DrawCmd
  | [] => []
  | m :: rest =>
    DrawCmd.segment p0 (getCoordinates canvas m.2.1) m.1.brushSize m.1.color ::
      polylineSpec canvas (getCoordinates canvas m.2.1) rest

/-- Session invariant: an idle session holds no stale point. -/
def SessionInv (s : Session) : Prop := s.isDrawing = false → s.lastPoint = none

/-- Background fill color of the canvas, the hex value 1a1a1a. -/
def backgroundColor : String := "#1a1a1a"

/-- The configured surface: the physical backing-store size set by the
setup effect (`canvas.width = width * 2`), the context scale transform
(`ctx.scale(2, 2)`), the line cap/join defaults, and the resulting pixel
content as a map from logical coordinates to color. -/
structure Surface where
  physWidth : ℚ
  physHeight : ℚ
  scaleX : ℚ
  scaleY : ℚ
  lineCap : String
  lineJoin : String
  pixels : ℚ → ℚ → String

/-- The setup effect for logical size `(w, h)`: reassigning
`canvas.width` / `canvas.height` discards all prior pixel content (the
prior surface is ignored), the context is re-scaled by 2, caps and joins
are set round, and `fillRect(0, 0, w, h)` paints the whole logical area
with the background color; everything outside it is the reset transparent
raster. -/
def configure (_prev : Option Surface) (w h : ℚ) : Surface :=
  { physWidth := w * 2
    physHeight := h * 2
    scaleX := 2
    scaleY := 2
    lineCap := "round"
    lineJoin := "round"
    pixels := fun px py =>
      if 0 ≤ px ∧ px ≤ w ∧ 0 ≤ py ∧ py ≤ h then backgroundColor else "transparent" }

/-- The imperative-handle `clear()`: refill the logical area with the
background color; a no-op returning the unconfigured state when the
context is absent. -/
def clearOp (w h : ℚ) : Option Surface → Option Surface
  | none => none
  | some surf =>
    some { surf with
            pixels := fun px py =>
              if 0 ≤ px ∧ px ≤ w ∧ 0 ≤ py ∧ py ≤ h then backgroundColor
              else surf.pixels px py }

/-- The imperative-handle `save()`: `null` when the canvas is absent,
otherwise the encoded snapshot (`toDataURL`, injected as `enc`). -/
def saveOp (enc : Surface → String) : Option Surface → Option String
  | none => none
  | some surf => some (enc surf)

/-- The range facts about one drip: taper length in `[40, 120)` and blob
radius in `[brushSize / 2, brushSize)`. -/
def dripValuesOK (cfg : Config) (rnd : ℕ → ℚ) : Prop :=
  (40 ≤ dripLength rnd ∧ dripLength rnd < 120) ∧
  (cfg.brushSize * (1 / 2) ≤ dripWidth cfg rnd ∧ dripWidth cfg rnd < cfg.brushSize)

/-- The range facts about one splatter cluster: droplet count in
`[8, 19]`, one circle per droplet, and for every droplet index the angle
in `[0, 2 pi)`, the radial distance in `[0, brushSize * 3)`, the droplet
radius in `[2, brushSize / 2 + 2)`, and the center within distance
`brushSize * 3` of the invocation point (stated on squares). -/
def splatterClusterOK (cfg : Config) (rnd : ℕ → ℚ) (x y : ℚ) : Prop :=
  (8 ≤ numDroplets rnd ∧ numDroplets rnd ≤ 19) ∧
  (drawSplatter cfg (some ()) rnd x y).length = numDroplets rnd ∧
  ∀ i : ℕ,
    (0 ≤ splatterAngle cfg rnd i ∧ splatterAngle cfg rnd i < 2 * cfg.pi) ∧
    (0 ≤ splatterDistance cfg rnd i ∧ splatterDistance cfg rnd i < cfg.brushSize * 3) ∧
    (2 ≤ splatterSize cfg rnd i ∧ splatterSize cfg rnd i < cfg.brushSize * (1 / 2) + 2) ∧
    (splatterCenterX cfg rnd x i - x) ^ 2 + (splatterCenterY cfg rnd y i - y) ^ 2 <
      (cfg.brushSize * 3) ^ 2

/-- Concrete brush configuration used to evaluate theorems. -/
def cfgBrush : Config :=
  { color := "#e63946", tool := Tool.brush, brushSize := 12
    cosf := fun _ => 1, sinf := fun _ => 0, pi := 3 }

/-- Concrete splatter configuration used to evaluate theorems. -/
def cfgSplat : Config :=
  { color := "#457b9d", tool := Tool.splatter, brushSize := 20
    cosf := fun _ => 1, sinf := fun _ => 0, pi := 3 }

/-- Concrete drip configuration used to evaluate theorems. -/
def cfgDrip : Config :=
  { color := "#f4d35e", tool := Tool.drip, brushSize := 10
    cosf := fun _ => 1, sinf := fun _ => 0, pi := 3 }

/-- Constant-zero random source. -/
def rndZero : ℕ → ℚ := fun _ => 0

/-- Constant-one-half random source. -/
def rndHalf : ℕ → ℚ := fun _ => 1 / 2

/-- Bounding rectangle at the page origin. -/
def rectZero : Rect := { left := 0, top := 0 }

/-- The droplet count is at least 8. -/
theorem numDroplets_ge (rnd : ℕ → ℚ) : 8 ≤ numDroplets rnd := by
  unfold numDroplets
  omega

/-- The droplet count is at most 19 when the random draw lies in `[0, 1)`. -/
theorem numDroplets_le (rnd : ℕ → ℚ) (_h0 : 0 ≤ rnd 0) (h1 : rnd 0 < 1) :
    numDroplets rnd ≤ 19 := by
  unfold numDroplets
  have hfl : ⌊rnd 0 * 12⌋ < 12 := by
    apply Int.floor_lt.mpr
    push_cast
    linarith
  omega

/-- With a context present, the splatter emits one circle per droplet. -/
theorem drawSplatter_length (cfg : Config) (rnd : ℕ → ℚ) (x y : ℚ) :
    (drawSplatter cfg (some ()) rnd x y).length = numDroplets rnd := by
  simp [drawSplatter]

/-- With a context present, the splatter emits at least one circle. -/
theorem drawSplatter_ne_nil (cfg : Config) (rnd : ℕ → ℚ) (x y : ℚ) :
    drawSplatter cfg (some ()) rnd x y ≠ [] := by
  intro hnil
  have h := drawSplatter_length cfg rnd x y
  have h8 := numDroplets_ge rnd
  rw [hnil] at h
  simp at h
  omega

/-- With a context present, the drip emits exactly the blob and the teardrop. -/
theorem drawDrip_length (cfg : Config) (rnd : ℕ → ℚ) (x y : ℚ) :
    (drawDrip cfg (some ()) rnd x y).length = 2 := by
  simp [drawDrip]

/-- C8: when the surface has not been configured (no rendering context,
no mounted canvas), `clear` and the three draw operations are no-ops
leaving state unchanged, and `save` returns null. -/
theorem unready_surface_noops (cfg : Config) (w h x y : ℚ) (a b : Point)
    (rnd : ℕ → ℚ) (enc : Surface → String) :
    clearOp w h none = none ∧ saveOp enc none = none ∧
    drawBrushStroke cfg none a b = [] ∧ drawSplatter cfg none rnd x y = [] ∧
    drawDrip cfg none rnd x y = [] :=
  ⟨rfl, rfl, rfl, rfl, rfl⟩

/-- C10: the input normalizer is total; with an unmounted canvas ref it
returns the origin, so a move event processed while drawing in that state
silently records the origin as the last point instead of failing. -/
theorem unmounted_normalizer_origin :
    (∀ e : RawEvent, getCoordinates none e = { x := 0, y := 0 }) ∧
    (∀ (cfg : Config) (ctx : Option Unit) (rnd : ℕ → ℚ) (e : RawEvent) (lp : Option Point),
      (handleMove cfg ctx none rnd e { isDrawing := true, lastPoint := lp }).1.lastPoint =
        some { x := 0, y := 0 }) :=
  ⟨fun _ => rfl, fun _ _ _ _ _ => rfl⟩

/-- C9: configuring or resizing to logical size `(w, h)` sets the
physical backing resolution to `(w * 2, h * 2)`, scales the context by the
2x multiplier, and fills the whole logical area `[0, w] x [0, h]` with the
background color regardless of any prior surface content. -/
theorem configure_scales_and_repaints (prev : Option Surface) (w h px py : ℚ)
    (hx0 : 0 ≤ px) (hxw : px ≤ w) (hy0 : 0 ≤ py) (hyh : py ≤ h) :
    (configure prev w h).physWidth = w * 2 ∧ (configure prev w h).physHeight = h * 2 ∧
    (configure prev w h).scaleX = 2 ∧ (configure prev w h).scaleY = 2 ∧
    (configure prev w h).pixels px py = backgroundColor := by
  refine ⟨rfl, rfl, rfl, rfl, ?_⟩
  simp [configure, hx0, hxw, hy0, hyh]

/-- Witness: configure at logical size 800 x 600 and sample the pixel at
(400, 300). -/
theorem configure_scales_and_repaints_witness :
    (configure none 800 600).physWidth = 800 * 2 ∧
    (configure none 800 600).physHeight = 600 * 2 ∧
    (configure none 800 600).scaleX = 2 ∧ (configure none 800 600).scaleY = 2 ∧
    (configure none 800 600).pixels 400 300 = backgroundColor :=
  configure_scales_and_repaints none 800 600 400 300 (by norm_num) (by norm_num)
    (by norm_num) (by norm_num)

/-- C4: for every random source valued in `[0, 1)` and positive brush
size, the drip taper length lies in `[40, 120)` and the blob radius lies
in `[brushSize / 2, brushSize)`. -/
theorem drip_randoms_in_range (cfg : Config) (rnd : ℕ → ℚ)
    (h0 : 0 ≤ rnd 0) (h0l : rnd 0 < 1) (h1 : 0 ≤ rnd 1) (h1l : rnd 1 < 1)
    (hb : 0 < cfg.brushSize) : dripValuesOK cfg rnd := by
  unfold dripValuesOK dripLength dripWidth
  refine ⟨⟨by linarith, by linarith⟩, ?_, ?_⟩
  · nlinarith [mul_nonneg h1 hb.le]
  · nlinarith [mul_pos (sub_pos.mpr h1l) hb]

/-- Witness: the drip ranges at brush size 10 with all random draws 1/2. -/
theorem drip_randoms_in_range_witness : dripValuesOK cfgDrip rndHalf :=
  drip_randoms_in_range cfgDrip rndHalf (by norm_num [rndHalf]) (by norm_num [rndHalf])
    (by norm_num [rndHalf]) (by norm_num [rndHalf]) (by norm_num [cfgDrip])

/-- C2: every splatter invocation draws between 8 and 19 droplets, one
circle each; every droplet has its angle in `[0, 2 pi)`, its distance
from the invocation point in `[0, brushSize * 3)` (hence every center
within distance `brushSize * 3`), and its radius in
`[2, brushSize / 2 + 2)`. -/
theorem splatter_cluster_within_bounds (cfg : Config) (rnd : ℕ → ℚ) (x y : ℚ)
    (hr : ∀ n, 0 ≤ rnd n ∧ rnd n < 1) (hb : 0 < cfg.brushSize) (hp : 0 < cfg.pi)
    (hcs : ∀ θ, cfg.cosf θ ^ 2 + cfg.sinf θ ^ 2 = 1) :
    splatterClusterOK cfg rnd x y := by
  refine ⟨⟨numDroplets_ge rnd, numDroplets_le rnd (hr 0).1 (hr 0).2⟩,
    drawSplatter_length cfg rnd x y, ?_⟩
  intro i
  obtain ⟨ha0, ha1⟩ := hr (3 * i + 1)
  obtain ⟨hd0, hd1⟩ := hr (3 * i + 2)
  obtain ⟨hs0, hs1⟩ := hr (3 * i + 3)
  have hdist0 : 0 ≤ splatterDistance cfg rnd i := by
    unfold splatterDistance
    nlinarith [mul_nonneg hd0 hb.le]
  have hdist1 : splatterDistance cfg rnd i < cfg.brushSize * 3 := by
    unfold splatterDistance
    nlinarith [mul_pos (sub_pos.mpr hd1) hb]
  refine ⟨⟨?_, ?_⟩, ⟨hdist0, hdist1⟩, ⟨?_, ?_⟩, ?_⟩
  · unfold splatterAngle
    nlinarith [mul_nonneg ha0 hp.le]
  · unfold splatterAngle
    nlinarith [mul_pos (sub_pos.mpr ha1) hp]
  · unfold splatterSize
    nlinarith [mul_nonneg hs0 hb.le]
  · unfold splatterSize
    nlinarith [mul_pos (sub_pos.mpr hs1) hb]
  · have hkey : (cfg.cosf (splatterAngle cfg rnd i) * splatterDistance cfg rnd i) ^ 2 +
        (cfg.sinf (splatterAngle cfg rnd i) * splatterDistance cfg rnd i) ^ 2 =
        splatterDistance cfg rnd i ^ 2 := by
      have h1 := hcs (splatterAngle cfg rnd i)
      nlinarith [h1]
    unfold splatterCenterX splatterCenterY
    ring_nf
    nlinarith [hkey, hdist0, hdist1, hb]

/-- Witness: the splatter bounds at brush size 20 with all random draws
1/2, the cosine stub constant 1 and the sine stub constant 0. -/
theorem splatter_cluster_within_bounds_witness : splatterClusterOK cfgSplat rndHalf 100 100 :=
  splatter_cluster_within_bounds cfgSplat rndHalf 100 100
    (fun n => by norm_num [rndHalf]) (by norm_num [cfgSplat]) (by norm_num [cfgSplat])
    (fun θ => by norm_num [cfgSplat])

/-- C3 counterexample: at brush size 10 with the zero random source, the
blob radius is 5 but the teardrop top endpoints are at abscissas 197/2
and 203/2, a top width of 3 — the teardrop does not start at the blob
radius width, refuting the claim as stated. -/
theorem drip_taper_width_counterexample :
    drawDrip cfgDrip (some ()) rndZero 100 100 =
      [DrawCmd.circle 100 100 5 "#f4d35e",
       DrawCmd.teardrop { x := 197 / 2, y := 100 } { x := 99, y := 120 }
         { x := 100, y := 140 } { x := 101, y := 120 } { x := 203 / 2, y := 100 }
         "#f4d35e"] ∧
    dripWidth cfgDrip rndZero = 5 ∧ (203 / 2 : ℚ) - 197 / 2 ≠ 5 := by
  refine ⟨?_, ?_, by norm_num⟩
  · simp [drawDrip, dripLength, dripWidth, cfgDrip, rndZero]
    norm_num
  · norm_num [dripWidth, cfgDrip, rndZero]

/-- C3 amended: the drip renders, below the blob, a teardrop of two
symmetric quadratic curves converging at the point offset downward from
the blob center by the taper length, its width tapering from 0.6 times
the blob radius at the top (endpoints at the blob center height) to zero
at the converging point. -/
theorem drip_teardrop_shape (cfg : Config) (rnd : ℕ → ℚ) (x y : ℚ) :
    ∃ p0 c1 c2 p4 : Point,
      drawDrip cfg (some ()) rnd x y =
        [DrawCmd.circle x y (dripWidth cfg rnd) cfg.color,
         DrawCmd.teardrop p0 c1 { x := x, y := y + dripLength rnd } c2 p4 cfg.color] ∧
      p0.y = y ∧ p4.y = y ∧ x - p0.x = p4.x - x ∧
      c1.y = c2.y ∧ x - c1.x = c2.x - x ∧
      p4.x - p0.x = (3 / 5) * dripWidth cfg rnd := by
  refine ⟨_, _, _, _, rfl, rfl, rfl, by ring, rfl, by ring, by ring⟩

/-- C7: an interaction start puts the session into Drawing with the
normalized point recorded as the last point; the brush renders nothing,
splatter renders exactly one (nonempty) cluster at that point, and drip
renders exactly one drip (blob plus teardrop) at that point. -/
theorem start_transition_renders (cfg : Config) (canvas : Option Rect)
    (rnd : ℕ → ℚ) (e : RawEvent) (s : Session) :
    (handleStart cfg (some ()) canvas rnd e s).1 =
      { isDrawing := true, lastPoint := some (getCoordinates canvas e) } ∧
    (cfg.tool = Tool.brush → (handleStart cfg (some ()) canvas rnd e s).2 = []) ∧
    (cfg.tool = Tool.splatter →
      (handleStart cfg (some ()) canvas rnd e s).2 =
        drawSplatter cfg (some ()) rnd (getCoordinates canvas e).x
          (getCoordinates canvas e).y ∧
      (handleStart cfg (some ()) canvas rnd e s).2 ≠ []) ∧
    (cfg.tool = Tool.drip →
      (handleStart cfg (some ()) canvas rnd e s).2 =
        drawDrip cfg (some ()) rnd (getCoordinates canvas e).x
          (getCoordinates canvas e).y ∧
      (handleStart cfg (some ()) canvas rnd e s).2.length = 2) := by
  refine ⟨rfl, ?_, ?_, ?_⟩
  · intro ht
    simp [handleStart, ht]
  · intro ht
    refine ⟨by simp [handleStart, ht], ?_⟩
    simp only [handleStart, ht]
    exact drawSplatter_ne_nil cfg rnd _ _
  · intro ht
    refine ⟨by simp [handleStart, ht], ?_⟩
    simp only [handleStart, ht]
    exact drawDrip_length cfg rnd _ _

/-- Witness: interaction start with the splatter tool at client point
(3, 4) over a rectangle at the origin. -/
theorem start_transition_renders_witness :
    (handleStart cfgSplat (some ()) (some rectZero) rndHalf (RawEvent.mouse 3 4)
        initialSession).2 =
      drawSplatter cfgSplat (some ()) rndHalf 3 4 := by
  have h := (start_transition_renders cfgSplat (some rectZero) rndHalf
    (RawEvent.mouse 3 4) initialSession).2.2.1 rfl
  simpa [getCoordinates, rectZero] using h.1

/-- C6: a move processed while Drawing updates the last point to the new
normalized point in all cases, and renders a splatter exactly when the
threshold draw exceeds 0.7, a drip exactly when it exceeds 0.9. -/
theorem move_render_thresholds (cfg : Config) (canvas : Option Rect)
    (rnd : ℕ → ℚ) (e : RawEvent) (lp : Option Point) :
    (handleMove cfg (some ()) canvas rnd e { isDrawing := true, lastPoint := lp }).1 =
      { isDrawing := true, lastPoint := some (getCoordinates canvas e) } ∧
    (cfg.tool = Tool.splatter →
      ((handleMove cfg (some ()) canvas rnd e
          { isDrawing := true, lastPoint := lp }).2 ≠ [] ↔ rnd 0 > 7 / 10)) ∧
    (cfg.tool = Tool.drip →
      ((handleMove cfg (some ()) canvas rnd e
          { isDrawing := true, lastPoint := lp }).2 ≠ [] ↔ rnd 0 > 9 / 10)) := by
  refine ⟨rfl, ?_, ?_⟩
  · intro ht
    by_cases hthr : rnd 0 > 7 / 10
    · simp [handleMove, ht, hthr, drawSplatter_ne_nil]
    · simp [handleMove, ht, hthr]
  · intro ht
    by_cases hthr : rnd 0 > 9 / 10
    · have hne : drawDrip cfg (some ())
          (fun n => rnd (n + 1)) (getCoordinates canvas e).x (getCoordinates canvas e).y ≠ [] := by
        intro hnil
        have := drawDrip_length cfg (fun n => rnd (n + 1))
          (getCoordinates canvas e).x (getCoordinates canvas e).y
        rw [hnil] at this
        simp at this
      simp [handleMove, ht, hthr, hne]
    · simp [handleMove, ht, hthr]

/-- Witness: a move with the splatter tool while Drawing, with the
threshold draw 1/2 (no render, last point still updated). -/
theorem move_render_thresholds_witness :
    ((handleMove cfgSplat (some ()) (some rectZero) rndHalf (RawEvent.mouse 8 9)
        { isDrawing := true, lastPoint := none }).2 ≠ [] ↔ rndHalf 0 > 7 / 10) :=
  (move_render_thresholds cfgSplat (some rectZero) rndHalf (RawEvent.mouse 8 9) none).2.1 rfl

/-- One session step preserves the no-stale-point invariant. -/
theorem sessionInv_step (cfg : Config) (ctx : Option Unit) (canvas : Option Rect)
    (s : Session) (ev : Event) (hinv : SessionInv s) :
    SessionInv (stepSession cfg ctx canvas s ev).1 := by
  cases ev with
  | start e rnd =>
    intro h
    simp [stepSession, handleStart] at h
  | move e rnd =>
    cases hd : s.isDrawing with
    | true =>
      intro h
      simp [stepSession, handleMove, hd] at h
    | false =>
      simpa [stepSession, handleMove, hd] using hinv
  | finish =>
    intro _
    rfl

/-- Running events from a state satisfying the invariant preserves it. -/
theorem runSessionFrom_inv (ctx : Option Unit) (canvas : Option Rect)
    (events : List (Config × Event)) (s : Session) (hinv : SessionInv s) :
    SessionInv (runSessionFrom ctx canvas s events) := by
  induction events generalizing s with
  | nil => exact hinv
  | cons ce rest ih =>
    exact ih _ (sessionInv_step ce.1 ctx canvas s ce.2 hinv)

/-- C5: interaction end (also bound to pointer-leave) always returns the
session to Idle with the last point cleared; the idle-implies-no-point
invariant holds initially, is preserved by every start, move and end
transition, and therefore holds in every reachable session state. -/
theorem end_resets_session :
    (∀ s : Session, handleEnd s = (initialSession, [])) ∧
    SessionInv initialSession ∧
    (∀ (cfg : Config) (ctx : Option Unit) (canvas : Option Rect) (s : Session) (ev : Event),
      SessionInv s → SessionInv (stepSession cfg ctx canvas s ev).1) ∧
    (∀ (ctx : Option Unit) (canvas : Option Rect) (events : List (Config × Event)),
      SessionInv (runSession ctx canvas events)) :=
  ⟨fun _ => rfl, fun _ => rfl, sessionInv_step,
    fun ctx canvas events => runSessionFrom_inv ctx canvas events initialSession fun _ => rfl⟩

/-- Witness: after a start followed by an end, the reachable idle state
holds no last point. -/
theorem end_resets_session_witness :
    (runSession (some ()) (some rectZero)
        [(cfgBrush, Event.start (RawEvent.mouse 5 5) rndZero),
         (cfgBrush, Event.finish)]).lastPoint = none :=
  (end_resets_session).2.2.2 (some ()) (some rectZero)
    [(cfgBrush, Event.start (RawEvent.mouse 5 5) rndZero), (cfgBrush, Event.finish)]
    (by rfl)

/-- C1: while Drawing with the brush, every move renders exactly one
straight segment from the previous last point to the newly normalized
point, with the width and color current at that move, and the last point
then advances — so a sequence of moves renders precisely the connected
polyline through the sampled points in order, the final last point being
the last sampled point. -/
theorem brush_moves_render_polyline (canvas : Option Rect)
    (events : List (Config × RawEvent × (ℕ → ℚ))) (p0 : Point)
    (hbrush : ∀ m ∈ events, m.1.tool = Tool.brush) :
    processMoves (some ()) canvas { isDrawing := true, lastPoint := some p0 } events =
      ({ isDrawing := true,
         lastPoint := some ((events.map fun m => getCoordinates canvas m.2.1).getLastD p0) },
       polylineSpec canvas p0 events) := by
  revert hbrush
  induction events generalizing p0 with
  | nil =>
    intro _
    simp [processMoves, polylineSpec]
  | cons m rest ih =>
    intro hbrush
    have hm : m.1.tool = Tool.brush := hbrush m (by simp)
    have hrest : ∀ m2 ∈ rest, m2.1.tool = Tool.brush :=
      fun m2 h2 => hbrush m2 (by simp [h2])
    have hstep : handleMove m.1 (some ()) canvas m.2.2 m.2.1
        { isDrawing := true, lastPoint := some p0 } =
        ({ isDrawing := true, lastPoint := some (getCoordinates canvas m.2.1) },
         [DrawCmd.segment p0 (getCoordinates canvas m.2.1) m.1.brushSize m.1.color]) := by
      simp [handleMove, hm, drawBrushStroke]
    simp only [processMoves, hstep, List.map_cons, List.getLastD_cons, polylineSpec]
    rw [ih (getCoordinates canvas m.2.1) hrest]
    simp

/-- Witness: one brush move from (10, 10) to client point (50, 10) over a
rectangle at the origin renders the single segment of width 12. -/
theorem brush_moves_render_polyline_witness :
    processMoves (some ()) (some rectZero)
        { isDrawing := true, lastPoint := some { x := 10, y := 10 } }
        [(cfgBrush, RawEvent.mouse 50 10, rndZero)] =
      ({ isDrawing := true, lastPoint := some { x := 50, y := 10 } },
       [DrawCmd.segment { x := 10, y := 10 } { x := 50, y := 10 } 12 "#e63946"]) := by
  have h := brush_moves_render_polyline (some rectZero)
    [(cfgBrush, RawEvent.mouse 50 10, rndZero)] { x := 10, y := 10 }
    (by intro m hm; simp at hm; rw [hm]; rfl)
  simpa [polylineSpec, getCoordinates, rectZero, cfgBrush] using h

end Atelier
